import Mathlib

/-!
Verification development for the SEROHAP vertical image merger
(`src/index.tsx`). The React component `App` keeps a working set of files,
lets the user reorder and remove them, and on merge decodes every file,
lays the decoded images out as a vertical stack of uniform width, paints
them onto a canvas and encodes the canvas.

The embedding below translates the handlers of `src/index.tsx` into pure
Lean functions. JavaScript numbers appearing in the layout arithmetic are
modelled as exact rationals (ℚ); array indices as ℕ; the React state
hooks as an explicit `AppState` record threaded through the handlers.
External effects of a merge run (object-URL creation/revocation, whether
`setIsLoading(true)` ran, the produced data) are recorded in a `MergeRun`
trace so that the controller claims can be stated.
-/

namespace Serohap

/-- A raw input file as the component sees it: `File` objects carry a
name, a byte size and a declared MIME type (`file.type`). -/
structure SrcFile where
  name : String
  size : Nat
  type : String
deriving Repr, DecidableEq

/-- The filter applied in `addFiles`: the test is the source expression
(src/index.tsx line 28). The string-prefix test is modelled on the
underlying character lists (`String.startsWith` compares exactly these),
which keeps it kernel-computable. -/
def isImageFile (f : SrcFile) : Bool :=
  "image/".data.isPrefixOf f.type.data

/-- The error message set by `addFiles` when the 10-entry bound would be
exceeded (src/index.tsx line 31). -/
def capacityMsg : String := "최대 10개의 이미지만 추가할 수 있습니다."

/-- The error message for an empty working set (src/index.tsx line 79). -/
def emptyMsg : String := "합칠 이미지를 하나 이상 선택해주세요."

/-- The error message for an out-of-range output width
(src/index.tsx line 83). -/
def widthMsg : String := "가로 사이즈는 100px에서 2000px 사이여야 합니다."

/-- The error message set in the `catch` block of `handleMerge`
(src/index.tsx line 140); it is used for every in-run failure. -/
def processMsg : String := "이미지 처리 중 오류가 발생했습니다. 파일 형식이 올바른지 확인해주세요."

/-- Result of one `addFiles` call (src/index.tsx lines 25–35): the new
`files` state and the new `error` state. `setError(null)` runs first, so
on success the error ends up cleared; on rejection it holds the capacity
message and `files` is left untouched. -/
structure AddOutcome where
  files : List SrcFile
  error : Option String
deriving Repr, DecidableEq

/-- The handler `addFiles` (src/index.tsx lines 25–35): keep only `image/*`-typed
files, reject the whole batch if the bound of 10 would be exceeded,
otherwise append the admitted images in the order received. -/
def addFiles (files : List SrcFile) (newFiles : List SrcFile) : AddOutcome :=
  let imageFiles := newFiles.filter isImageFile
  if files.length + imageFiles.length > 10 then
    { files := files, error := some capacityMsg }
  else
    { files := files ++ imageFiles, error := none }

/-- JavaScript `Array.prototype.filter` with an index-aware callback, as used by
`handleRemoveFile`: `keep i` decides whether the element at overall
position `i` stays; `i` is the position of the head of the remaining
list. -/
def filterWithIndex (keep : Nat → Bool) : List α → Nat → List α
  | [], _ => []
  | a :: as, i =>
    if keep i then a :: filterWithIndex keep as (i + 1)
    else filterWithIndex keep as (i + 1)

/-- The handler `handleRemoveFile` (src/index.tsx lines 63–65):
`prev.filter((_, i) => i !== index)`. -/
def handleRemoveFile (files : List SrcFile) (index : Nat) : List SrcFile :=
  filterWithIndex (fun i => i != index) files 0

/-- The handler `handleDragSort` (src/index.tsx lines 67–75). The two drag refs may
be `null`, in which case nothing happens. Otherwise the dragged item is
removed with `splice(dragItem, 1)` and reinserted with
`splice(dragOverItem, 0, item)`; JavaScript `splice` clamps an oversized
target index to the array length, hence the `min`. (A `dragItem` beyond
the array would make `splice(dragItem, 1)[0]` yield `undefined`; the UI
only ever stores indices of rendered entries, so that branch keeps the
list unchanged here.) -/
def handleDragSort (files : List α) (dragItem dragOverItem : Option Nat) : List α :=
  match dragItem, dragOverItem with
  | some fromIdx, some toIdx =>
    match files.get? fromIdx with
    | some dragged =>
      let newFiles := files.eraseIdx fromIdx
      newFiles.insertIdx (min toIdx newFiles.length) dragged
    | none => files
  | _, _ => files

/-- A decoded image: the `naturalWidth`/`naturalHeight` of the
`HTMLImageElement` once loaded (src/index.tsx lines 97–102). -/
structure LoadedImage where
  naturalWidth : Nat
  naturalHeight : Nat
deriving Repr, DecidableEq

/-- The `Promise.all` over the per-file decodes (src/index.tsx lines
95–104): succeeds with the list of loaded images in file order, fails as
soon as any single decode fails. -/
def decodeAll (decode : SrcFile → Option LoadedImage) : List SrcFile → Option (List LoadedImage)
  | [] => some []
  | f :: fs =>
    match decode f, decodeAll decode fs with
    | some img, some imgs => some (img :: imgs)
    | _, _ => none

/-- Per-image layout arithmetic of `handleMerge` (src/index.tsx lines
107–111): `scaleRatio = outputWidth / naturalWidth`,
`height = naturalHeight * scaleRatio`. -/
def scaledHeight (outputWidth : ℚ) (img : LoadedImage) : ℚ :=
  let scaleRatio := outputWidth / (img.naturalWidth : ℚ)
  (img.naturalHeight : ℚ) * scaleRatio

/-- The `currentY` values of the draw loop (src/index.tsx lines
120–126): `currentY` starts at `y`, each image is drawn at the current
value and then `currentY += height`. -/
def drawOffsets : List ℚ → ℚ → List ℚ
  | [], _ => []
  | h :: hs, y => y :: drawOffsets hs (y + h)

/-- The layout data `handleMerge` computes before drawing
(src/index.tsx lines 106–126). -/
structure Layout where
  scaledHeights : List ℚ
  canvasWidth : ℚ
  canvasHeight : ℚ
  yOffsets : List ℚ
deriving Repr, DecidableEq

/-- The layout computation of `handleMerge` (src/index.tsx lines
106–126): map every loaded image to its scaled height while accumulating
`totalHeight`, set `canvas.width = outputWidth`,
`canvas.height = totalHeight`, and stack the images at cumulative
`currentY` offsets. -/
def computeLayout (outputWidth : ℚ) (imgs : List LoadedImage) : Layout :=
  let scaledHeights := imgs.map (scaledHeight outputWidth)
  { scaledHeights := scaledHeights
    canvasWidth := outputWidth
    canvasHeight := scaledHeights.foldl (fun acc h => acc + h) 0
    yOffsets := drawOffsets scaledHeights 0 }

/-- The output format state (jpeg or png, src/index.tsx line 7). -/
inductive OutFormat where
  | jpeg
  | png
deriving Repr, DecidableEq

/-- The file extension / MIME subtype string of a format. -/
def OutFormat.ext : OutFormat → String
  | .jpeg => "jpeg"
  | .png => "png"

/-- The React state of `App` that the merge path touches
(src/index.tsx lines 5–9). -/
structure AppState where
  files : List SrcFile
  outputWidth : Int
  outputFormat : OutFormat
  isLoading : Bool
  error : Option String
deriving Repr, DecidableEq

/-- The data a successful merge run produces (src/index.tsx lines
106–136): the layout painted onto the canvas and the encoding
parameters of the `toDataURL` / download step. -/
structure MergeResult where
  canvasWidth : ℚ
  canvasHeight : ℚ
  scaledHeights : List ℚ
  yOffsets : List ℚ
  mimeType : String
  filename : String
  jpegQuality : Option ℚ
deriving Repr, DecidableEq

/-- Trace of one `handleMerge` invocation: the final React state, whether
`setIsLoading(true)` ran (the run entered its Running phase), how many
object URLs the run created (`URL.createObjectURL`, one per file handed
to the decoder, src/index.tsx line 101) and revoked
(`URL.revokeObjectURL`, src/index.tsx line 125), and the produced
result if any. -/
structure MergeRun where
  state : AppState
  enteredRunning : Bool
  urlsCreated : Nat
  urlsRevoked : Nat
  result : Option MergeResult
deriving Repr, DecidableEq

/-- The handler `handleMerge` (src/index.tsx lines 77–144). `ctxAvailable` models
whether the canvas 2d context is obtained (line 92–93);
`decode` models the image decoding done by the browser for one file. Control flow:
the two validation guards return early (before `setIsLoading(true)`);
then the try block creates one object URL per file and awaits all
decodes; any failure jumps to the catch block, which only sets the
generic error message — it revokes nothing; the success path revokes
the URL of each image inside the draw loop and encodes the canvas; `finally`
clears `isLoading`. -/
def handleMerge (ctxAvailable : Bool) (decode : SrcFile → Option LoadedImage)
    (s : AppState) : MergeRun :=
  if s.files.length = 0 then
    { state := { s with error := some emptyMsg }
      enteredRunning := false, urlsCreated := 0, urlsRevoked := 0, result := none }
  else if s.outputWidth < 100 ∨ s.outputWidth > 2000 then
    { state := { s with error := some widthMsg }
      enteredRunning := false, urlsCreated := 0, urlsRevoked := 0, result := none }
  else if ctxAvailable = false then
    { state := { s with error := some processMsg, isLoading := false }
      enteredRunning := true, urlsCreated := 0, urlsRevoked := 0, result := none }
  else
    match decodeAll decode s.files with
    | none =>
      { state := { s with error := some processMsg, isLoading := false }
        enteredRunning := true, urlsCreated := s.files.length, urlsRevoked := 0
        result := none }
    | some imgs =>
      let L := computeLayout (s.outputWidth : ℚ) imgs
      { state := { s with error := none, isLoading := false }
        enteredRunning := true, urlsCreated := s.files.length
        urlsRevoked := imgs.length
        result := some
          { canvasWidth := L.canvasWidth
            canvasHeight := L.canvasHeight
            scaledHeights := L.scaledHeights
            yOffsets := L.yOffsets
            mimeType := "image/" ++ s.outputFormat.ext
            filename := "merged-image." ++ s.outputFormat.ext
            jpegQuality := match s.outputFormat with
              | .jpeg => some (92 / 100)
              | .png => none } }

/-- The `disabled` attribute of the merge button
(src/index.tsx line 228): `isLoading || files.length === 0`. -/
def mergeButtonDisabled (s : AppState) : Bool :=
  s.isLoading || s.files.length == 0

/-- Sample file values used to instantiate the universally quantified
claims on concrete inputs. -/
def fileA : SrcFile := ⟨"a.png", 100, "image/png"⟩

def fileB : SrcFile := ⟨"b.png", 200, "image/png"⟩

def fileC : SrcFile := ⟨"c.jpg", 300, "image/jpeg"⟩

/-- Decode environment for the three-image scenario of the spec: the files
A, B, C decode to natural sizes 800×400, 400×400 and 1200×600. -/
def demoDecode : SrcFile → Option LoadedImage := fun f =>
  if f = fileA then some ⟨800, 400⟩
  else if f = fileB then some ⟨400, 400⟩
  else if f = fileC then some ⟨1200, 600⟩
  else none

/-- Decode environment in which the bytes of file C are corrupt: decoding
C fails while A still decodes. -/
def failDecode : SrcFile → Option LoadedImage := fun f =>
  if f = fileA then some ⟨800, 400⟩ else none

/-- Idle state holding the three scenario files at output width 780. -/
def demoState : AppState :=
  { files := [fileA, fileB, fileC], outputWidth := 780, outputFormat := .jpeg
    isLoading := false, error := none }

/-- The same state while a run is in flight (`isLoading = true`). -/
def runningState : AppState := { demoState with isLoading := true }

/-- Idle state with an empty working set. -/
def emptyState : AppState :=
  { files := [], outputWidth := 780, outputFormat := .jpeg
    isLoading := false, error := none }

/-- Idle state with one file and the out-of-range width 50. -/
def narrowState : AppState :=
  { files := [fileA], outputWidth := 50, outputFormat := .jpeg
    isLoading := false, error := none }

/-- Idle state holding the good file A and the corrupt file C. -/
def mixedState : AppState :=
  { files := [fileA, fileC], outputWidth := 780, outputFormat := .jpeg
    isLoading := false, error := none }

/-! ### Helper lemmas -/

theorem filterWithIndex_of_lt {α : Type} (l : List α) :
    ∀ m index, index < m → filterWithIndex (fun i => i != index) l m = l := by
  induction l with
  | nil => intro m index _; rfl
  | cons a as ih =>
    intro m index h
    simp only [filterWithIndex]
    rw [if_pos (by simpa using Nat.ne_of_gt h), ih (m + 1) index (Nat.lt_succ_of_lt h)]

theorem filterWithIndex_remove {α : Type} (l : List α) :
    ∀ m j index, index = m + j →
      filterWithIndex (fun i => i != index) l m = l.take j ++ l.drop (j + 1) := by
  induction l with
  | nil => intro m j index _; simp [filterWithIndex]
  | cons a as ih =>
    intro m j index h
    cases j with
    | zero =>
      have hm : m = index := by omega
      simp only [filterWithIndex]
      rw [if_neg (by simp [bne_iff_ne, hm])]
      simpa using filterWithIndex_of_lt as (m + 1) index (by omega)
    | succ j' =>
      simp only [filterWithIndex]
      rw [if_pos (by simp only [bne_iff_ne, ne_eq]; omega)]
      simp only [List.take_succ_cons, List.drop_succ_cons, List.cons_append,
        List.cons.injEq]
      exact ⟨trivial, ih (m + 1) j' index (by omega)⟩

theorem drawOffsets_get (hs : List ℚ) :
    ∀ (y : ℚ) (i : Nat), i < hs.length →
      (drawOffsets hs y).get? i = some (y + (hs.take i).sum) := by
  induction hs with
  | nil => intro y i h; simp at h
  | cons a as ih =>
    intro y i h
    cases i with
    | zero => simp [drawOffsets]
    | succ n =>
      simp only [drawOffsets, List.get?_cons_succ, List.take_succ_cons, List.sum_cons]
      rw [ih (y + a) n (by simpa using h)]
      congr 1
      ring

theorem foldl_add_eq_sum : ∀ (l : List ℚ) (a : ℚ),
    l.foldl (fun acc h => acc + h) a = a + l.sum := by
  intro l
  induction l with
  | nil => intro a; simp
  | cons b bs ih =>
    intro a
    simp only [List.foldl_cons, List.sum_cons, ih (a + b)]
    ring

theorem eraseIdx_map_comm {α β : Type} (g : α → β) :
    ∀ (l : List α) (i : Nat), (l.map g).eraseIdx i = (l.eraseIdx i).map g := by
  intro l
  induction l with
  | nil => intro i; rfl
  | cons a as ih =>
    intro i
    cases i with
    | zero => rfl
    | succ n => simp only [List.map_cons, List.eraseIdx_cons_succ, ih n, List.map_cons]

theorem insertIdx_map_comm {α β : Type} (g : α → β) :
    ∀ (l : List α) (n : Nat) (a : α),
      (l.insertIdx n a).map g = (l.map g).insertIdx n (g a) := by
  intro l
  induction l with
  | nil =>
    intro n a
    cases n with
    | zero => rfl
    | succ m => rfl
  | cons b bs ih =>
    intro n a
    cases n with
    | zero => rfl
    | succ m =>
      simp only [List.insertIdx_succ_cons, List.map_cons, ih m a]

theorem handleDragSort_map {α β : Type} (g : α → β) (l : List α) (i j : Nat) :
    handleDragSort (l.map g) (some i) (some j)
      = (handleDragSort l (some i) (some j)).map g := by
  simp only [handleDragSort, List.get?_map]
  cases hfi : l.get? i with
  | none => rfl
  | some a =>
    dsimp only [Option.map]
    rw [eraseIdx_map_comm, insertIdx_map_comm, List.length_map]

theorem decodeAll_eq_none (decode : SrcFile → Option LoadedImage) :
    ∀ (l : List SrcFile) (f : SrcFile), f ∈ l → decode f = none →
      decodeAll decode l = none := by
  intro l
  induction l with
  | nil => intro f hf; cases hf
  | cons a as ih =>
    intro f hf hfail
    rcases List.mem_cons.mp hf with h | h
    · subst h
      simp only [decodeAll, hfail]
    · have hrec := ih f h hfail
      simp only [decodeAll, hrec]
      cases decode a <;> rfl

/-! ### Claim theorems -/

/-- C2: if the current entry count plus the count of image-typed files in
the batch exceeds 10, `addFiles` rejects the whole batch with the
capacity error and leaves the working set exactly as it was (no partial
admission). -/
theorem addFiles_capacity_atomic (files newFiles : List SrcFile)
    (h : 10 < files.length + (newFiles.filter isImageFile).length) :
    (addFiles files newFiles).files = files
    ∧ (addFiles files newFiles).error = some capacityMsg := by
  simp only [addFiles]
  rw [if_pos h]
  exact ⟨rfl, rfl⟩

/-- Witness for C2: adding 11 image files to an empty set trips the
capacity bound and the set stays empty. -/
theorem addFiles_capacity_atomic_w :
    10 < ([] : List SrcFile).length + ((List.replicate 11 fileA).filter isImageFile).length
    ∧ (addFiles [] (List.replicate 11 fileA)).files = [] :=
  ⟨by decide, (addFiles_capacity_atomic [] (List.replicate 11 fileA) (by decide)).1⟩

/-- C9: `handleRemoveFile files index` deletes exactly the entry at
`index` — the result is `files.take index ++ files.drop (index + 1)`, so
every other entry, in particular every entry after the removed one, is
kept unchanged in its original relative order — and an index that
identifies no entry makes the call a no-op, not an error. -/
theorem handleRemoveFile_frame (files : List SrcFile) (index : Nat) :
    handleRemoveFile files index = files.take index ++ files.drop (index + 1)
    ∧ (files.length ≤ index → handleRemoveFile files index = files) := by
  have h : handleRemoveFile files index = files.take index ++ files.drop (index + 1) :=
    filterWithIndex_remove files 0 index index (Nat.zero_add index).symm
  refine ⟨h, fun hle => ?_⟩
  rw [h, List.take_of_length_le hle, List.drop_eq_nil_of_le (by omega), List.append_nil]

/-- Witness for C9: removing index 1 from a one-element set is a no-op. -/
theorem handleRemoveFile_frame_w :
    ([fileA] : List SrcFile).length ≤ 1 ∧ handleRemoveFile [fileA] 1 = [fileA] :=
  ⟨by decide, (handleRemoveFile_frame [fileA] 1).2 (by decide)⟩

/-- C7: for valid indices, `handleDragSort` removes the entry at
`fromIdx` and reinserts it at `toIdx` of the shortened list (a
single-item move); in particular `reorder(0, 2)` on `[A, B, C]` yields
`[B, C, A]`. -/
theorem handleDragSort_move {α : Type} (files : List α) (fromIdx toIdx : Nat)
    (h1 : fromIdx < files.length) (h2 : toIdx < files.length) :
    handleDragSort files (some fromIdx) (some toIdx)
      = (files.eraseIdx fromIdx).insertIdx toIdx (files.get ⟨fromIdx, h1⟩)
    ∧ handleDragSort [fileA, fileB, fileC] (some 0) (some 2) = [fileB, fileC, fileA] := by
  constructor
  · simp only [handleDragSort, List.get?_eq_get h1]
    have hlen : (files.eraseIdx fromIdx).length = files.length - 1 := by
      simp [List.length_eraseIdx, h1]
    rw [hlen, Nat.min_eq_left (by omega)]
  · decide

/-- C1: for every ordered sequence of decoded images and target width,
the layout computed before drawing gives image `i` the scaled height
`h_i * (W / w_i)`, a vertical offset equal to the sum of the scaled
heights before it, canvas width `W`, and canvas height the sum of all
scaled heights. -/
theorem computeLayout_spec (imgs : List LoadedImage) (W : ℚ) (i : Nat)
    (h : i < imgs.length) :
    (computeLayout W imgs).scaledHeights.get? i
      = some (((imgs.get ⟨i, h⟩).naturalHeight : ℚ)
          * (W / ((imgs.get ⟨i, h⟩).naturalWidth : ℚ)))
    ∧ (computeLayout W imgs).yOffsets.get? i
      = some (((computeLayout W imgs).scaledHeights.take i).sum)
    ∧ (computeLayout W imgs).canvasWidth = W
    ∧ (computeLayout W imgs).canvasHeight = (computeLayout W imgs).scaledHeights.sum := by
  refine ⟨?_, ?_, rfl, ?_⟩
  · show (imgs.map (scaledHeight W)).get? i = _
    rw [List.get?_map, List.get?_eq_get h]
    rfl
  · show (drawOffsets (imgs.map (scaledHeight W)) 0).get? i = _
    rw [drawOffsets_get (imgs.map (scaledHeight W)) 0 i (by simpa using h)]
    rw [zero_add]
    rfl
  · show (imgs.map (scaledHeight W)).foldl (fun acc h => acc + h) 0 = _
    rw [foldl_add_eq_sum, zero_add]
    rfl

/-- Witness for C1: a one-image layout at width 780. -/
theorem computeLayout_spec_w :
    (0 : Nat) < ([(⟨800, 400⟩ : LoadedImage)]).length
    ∧ (computeLayout 780 [(⟨800, 400⟩ : LoadedImage)]).canvasWidth = 780 :=
  ⟨by decide, (computeLayout_spec [⟨800, 400⟩] 780 0 (by decide)).2.2.1⟩

/-- C8: for every working set, valid reorder and fixed output width,
the scaled heights computed by a merge after the reorder are exactly the
reorder of the scaled heights computed before it: each image keeps its
scale factor, only the vertical draw order changes. -/
theorem reorder_preserves_scale (dims : SrcFile → LoadedImage) (W : ℚ)
    (files : List SrcFile) (i j : Nat)
    (h1 : i < files.length) (h2 : j < files.length) :
    (computeLayout W ((handleDragSort files (some i) (some j)).map dims)).scaledHeights
      = handleDragSort (computeLayout W (files.map dims)).scaledHeights
          (some i) (some j) :=
  calc (computeLayout W ((handleDragSort files (some i) (some j)).map dims)).scaledHeights
      = ((handleDragSort files (some i) (some j)).map dims).map (scaledHeight W) := rfl
    _ = (handleDragSort files (some i) (some j)).map (scaledHeight W ∘ dims) := by
        rw [List.map_map]
    _ = handleDragSort (files.map (scaledHeight W ∘ dims)) (some i) (some j) :=
        (handleDragSort_map (scaledHeight W ∘ dims) files i j).symm
    _ = handleDragSort ((files.map dims).map (scaledHeight W)) (some i) (some j) := by
        rw [List.map_map]
    _ = handleDragSort (computeLayout W (files.map dims)).scaledHeights
          (some i) (some j) := rfl

/-- Witness for C8: a two-file swap-like move at width 780. -/
theorem reorder_preserves_scale_w :
    (0 : Nat) < ([fileA, fileB] : List SrcFile).length
    ∧ (1 : Nat) < ([fileA, fileB] : List SrcFile).length
    ∧ (computeLayout 780 ((handleDragSort [fileA, fileB] (some 0) (some 1)).map
          (fun _ => (⟨800, 400⟩ : LoadedImage)))).scaledHeights
        = handleDragSort (computeLayout 780 ([fileA, fileB].map
            (fun _ => (⟨800, 400⟩ : LoadedImage)))).scaledHeights (some 0) (some 1) :=
  ⟨by decide, by decide,
    reorder_preserves_scale (fun _ => ⟨800, 400⟩) 780 [fileA, fileB] 0 1
      (by decide) (by decide)⟩

/-- Witness for C7: the concrete `reorder(0, 2)` move on `[A, B, C]`. -/
theorem handleDragSort_move_w :
    0 < ([fileA, fileB, fileC] : List SrcFile).length
    ∧ 2 < ([fileA, fileB, fileC] : List SrcFile).length
    ∧ handleDragSort [fileA, fileB, fileC] (some 0) (some 2) = [fileB, fileC, fileA] :=
  ⟨by decide, by decide,
    (handleDragSort_move [fileA, fileB, fileC] 0 2 (by decide) (by decide)).2⟩

/-- C3: a merge request with an empty working set fails with the
empty-set validation error, and one with a configured width outside
[100, 2000] fails with the width validation error; in both cases the run
never enters its Running phase (`setIsLoading(true)` does not execute),
no decoding is attempted (no object URL is created), and `isLoading`
stays at the Idle value `false`. -/
theorem merge_validation (ctx : Bool) (decode : SrcFile → Option LoadedImage)
    (s : AppState) (hIdle : s.isLoading = false) :
    (s.files = [] →
      (handleMerge ctx decode s).state.error = some emptyMsg
      ∧ (handleMerge ctx decode s).result = none
      ∧ (handleMerge ctx decode s).enteredRunning = false
      ∧ (handleMerge ctx decode s).urlsCreated = 0
      ∧ (handleMerge ctx decode s).state.isLoading = false)
    ∧ (s.files ≠ [] → (s.outputWidth < 100 ∨ s.outputWidth > 2000) →
      (handleMerge ctx decode s).state.error = some widthMsg
      ∧ (handleMerge ctx decode s).result = none
      ∧ (handleMerge ctx decode s).enteredRunning = false
      ∧ (handleMerge ctx decode s).urlsCreated = 0
      ∧ (handleMerge ctx decode s).state.isLoading = false) := by
  constructor
  · intro he
    have hlen : s.files.length = 0 := by simp [he]
    rw [handleMerge, if_pos hlen]
    exact ⟨rfl, rfl, rfl, rfl, hIdle⟩
  · intro hne hw
    have hlen : ¬(s.files.length = 0) := by simpa using hne
    rw [handleMerge, if_neg hlen, if_pos hw]
    exact ⟨rfl, rfl, rfl, rfl, hIdle⟩

/-- Witness for C3: the empty set yields the empty-set error; width 50
yields the width error. -/
theorem merge_validation_w :
    emptyState.isLoading = false ∧ narrowState.isLoading = false
    ∧ (handleMerge true demoDecode emptyState).state.error = some emptyMsg
    ∧ (handleMerge true demoDecode narrowState).state.error = some widthMsg :=
  ⟨rfl, rfl,
    ((merge_validation true demoDecode emptyState rfl).1 rfl).1,
    ((merge_validation true demoDecode narrowState rfl).2 (by decide) (by decide)).1⟩

/-- C4: a merge run in which some source fails to decode aborts with the
decode error message, produces no result, returns the controller to Idle
(`isLoading = false`), and leaves the working set unchanged. -/
theorem merge_decode_failure (decode : SrcFile → Option LoadedImage) (s : AppState)
    (hne : s.files ≠ []) (hw1 : 100 ≤ s.outputWidth) (hw2 : s.outputWidth ≤ 2000)
    (f : SrcFile) (hf : f ∈ s.files) (hfail : decode f = none) :
    (handleMerge true decode s).result = none
    ∧ (handleMerge true decode s).state.isLoading = false
    ∧ (handleMerge true decode s).state.files = s.files
    ∧ (handleMerge true decode s).state.error = some processMsg := by
  have hlen : ¬(s.files.length = 0) := by simpa using hne
  have hd := decodeAll_eq_none decode s.files f hf hfail
  rw [handleMerge, if_neg hlen, if_neg (by omega), if_neg (by simp), hd]
  exact ⟨rfl, rfl, rfl, rfl⟩

/-- Witness for C4: merging A (decodable) and C (corrupt) at width 780
aborts and keeps both files in the set. -/
theorem merge_decode_failure_w :
    fileC ∈ mixedState.files ∧ failDecode fileC = none
    ∧ (handleMerge true failDecode mixedState).state.files = mixedState.files :=
  ⟨by decide, by decide,
    (merge_decode_failure failDecode mixedState (by decide) (by decide) (by decide)
      fileC (by decide) (by decide)).2.2.1⟩

/-- C5 (amended): while a run is Running the merge trigger is disabled
only by the UI (the `disabled` attribute of the button holds whenever
`isLoading` is true); the own guard of the controller in `handleMerge` never
consults the Running state — whether a request enters Running depends
only on the file count and the configured width. -/
theorem merge_running_guard (ctx : Bool) (decode : SrcFile → Option LoadedImage)
    (s : AppState) (h : s.isLoading = true) :
    mergeButtonDisabled s = true
    ∧ ((handleMerge ctx decode s).enteredRunning = true
        ↔ (s.files ≠ [] ∧ 100 ≤ s.outputWidth ∧ s.outputWidth ≤ 2000)) := by
  refine ⟨by simp [mergeButtonDisabled, h], ?_⟩
  rw [handleMerge]
  rcases eq_or_ne s.files [] with he | hne
  · have hlen : s.files.length = 0 := by simp [he]
    rw [if_pos hlen]
    simp [he]
  · have hlen : ¬(s.files.length = 0) := by simpa using hne
    rw [if_neg hlen]
    by_cases hw : s.outputWidth < 100 ∨ s.outputWidth > 2000
    · rw [if_pos hw]
      constructor
      · intro hh; exact absurd hh (by simp)
      · rintro ⟨-, hw1, hw2⟩
        exfalso
        rcases hw with hw | hw <;> omega
    · have hbounds : 100 ≤ s.outputWidth ∧ s.outputWidth ≤ 2000 := by
        constructor <;> omega
      rw [if_neg hw]
      by_cases hc : ctx = false
      · rw [if_pos hc]
        simp [hne, hbounds.1, hbounds.2]
      · rw [if_neg hc]
        cases hdec : decodeAll decode s.files with
        | none => simp [hne, hbounds.1, hbounds.2]
        | some imgs => simp [hne, hbounds.1, hbounds.2]

/-- Witness for C5 (amended): the Running-state demo instance. -/
theorem merge_running_guard_w :
    runningState.isLoading = true ∧ mergeButtonDisabled runningState = true :=
  ⟨rfl, (merge_running_guard true demoDecode runningState rfl).1⟩

/-- Counterexample for C5 as stated: a merge request issued while the
controller is already Running (`isLoading = true`) is not rejected — it
enters the Running phase again. -/
theorem merge_running_guard_cx :
    runningState.isLoading = true
    ∧ (handleMerge true demoDecode runningState).enteredRunning = true := by
  exact ⟨rfl, by decide⟩

/-- Counterexample for C6 as stated: merging images of natural sizes
800×400, 400×400 and 1200×600 at output width 780 does not give scaled
heights 390, 390, 390 and does not give canvas height 1170. The middle
image is 400×400, so its scale factor is 780/400 and its scaled height
780, not 390. -/
theorem merge_scenario_cx :
    (handleMerge true demoDecode demoState).result.map MergeResult.scaledHeights
        ≠ some [390, 390, 390]
    ∧ (handleMerge true demoDecode demoState).result.map MergeResult.canvasHeight
        ≠ some 1170 := by
  have hd : decodeAll demoDecode demoState.files
      = some [⟨800, 400⟩, ⟨400, 400⟩, ⟨1200, 600⟩] := by decide
  rw [handleMerge, if_neg (by decide), if_neg (by decide), if_neg (by decide), hd]
  refine ⟨?_, ?_⟩ <;>
    norm_num [computeLayout, scaledHeight, drawOffsets, demoState, foldl_add_eq_sum]

/-- C6 (amended): merging images of natural sizes 800×400, 400×400 and
1200×600 at output width 780 gives scaled heights 390, 780 and 390, and
a 780×1560 canvas. -/
theorem merge_scenario :
    (handleMerge true demoDecode demoState).result.map MergeResult.scaledHeights
        = some [390, 780, 390]
    ∧ (handleMerge true demoDecode demoState).result.map MergeResult.canvasWidth
        = some 780
    ∧ (handleMerge true demoDecode demoState).result.map MergeResult.canvasHeight
        = some 1560 := by
  have hd : decodeAll demoDecode demoState.files
      = some [⟨800, 400⟩, ⟨400, 400⟩, ⟨1200, 600⟩] := by decide
  rw [handleMerge, if_neg (by decide), if_neg (by decide), if_neg (by decide), hd]
  refine ⟨?_, ?_, ?_⟩ <;>
    norm_num [computeLayout, scaledHeight, drawOffsets, demoState, foldl_add_eq_sum]

/-- C10 on the failing input: merging the decodable file A together with
the corrupt file C creates one object URL per file (two in total,
src/index.tsx line 101) but the decode-failure path revokes none of
them — the `catch` block (lines 138–141) contains no `revokeObjectURL`
call, so both handles are left dangling when the run ends. On the
success path, by contrast, every created URL is revoked in the draw
loop. -/
theorem merge_leaks_handles :
    (handleMerge true failDecode mixedState).urlsCreated = 2
    ∧ (handleMerge true failDecode mixedState).urlsRevoked = 0
    ∧ (handleMerge true failDecode mixedState).result = none
    ∧ (handleMerge true demoDecode demoState).urlsRevoked
        = (handleMerge true demoDecode demoState).urlsCreated := by
  refine ⟨by decide, by decide, by decide, by decide⟩

end Serohap
